import Mathlib

/-!
Verification of the Excel-to-CSV conversion pipeline (`src/extract.py`,
function `convert_excel_to_csv`) via a shallow embedding.

Modelling decisions, matching the source line by line:

* A pandas `DataFrame` is a `DF`: a list of column labels and a list of rows
  (cells as opaque strings).  `DF.isEmptyDF` mirrors `df.empty`, which is true
  when either axis has length zero.
* The external reader (`pd.read_excel`) is an oracle attached to each file:
  for each of the three engine attempts (`xlrd`, `openpyxl`, default) and the
  final `header=None` attempt, the file records whether that call raises or
  returns a `DF`.  The engine-cascade loop of lines 73-96 is `tryEnginesAux` /
  `readWithFallback`.
* Paths are lists of components; a discovered source file is a `SrcPath`
  (directory components relative to the source root, plus the base name).
  `pyStem` is `pathlib.PurePath.stem`; `destOf` is lines 60-61.
* Discovery (lines 46-50) appends, for each extension in order, the files
  whose base name ends with that extension, mirroring `rglob('*{ext}')`
  (POSIX glob matching is case sensitive).
* The per-file loop (lines 55-112) is `processFile` over a `RunState`;
  fallible filesystem operations (mkdir, `to_csv`, appending to
  `failed_files.txt`) are oracles on the `FileJob`.  An exception escaping
  the per-file `except` block aborts the run: `run` returns `Except.error`.
-/

/-- A pandas DataFrame: column labels plus rows of cells. -/
structure DF where
  cols : List String
  rows : List (List String)
deriving DecidableEq

/-- `df.empty`: true iff any axis has length zero. -/
def DF.isEmptyDF (d : DF) : Bool := d.rows.isEmpty || d.cols.isEmpty

/-- Outcome of one `pd.read_excel` call: an exception, or a DataFrame. -/
inductive ReadResult
  | err
  | ok (d : DF)
deriving DecidableEq

/-- The reader oracle for one spreadsheet file: what each of the four
`pd.read_excel` invocations of `convert_excel_to_csv` would return on it. -/
structure ExcelFile where
  readXlrd : ReadResult
  readOpenpyxl : ReadResult
  readDefault : ReadResult
  readNoHeader : ReadResult
deriving DecidableEq

/-- The results of the three engine attempts, in the order of
`engines_to_try = ['xlrd', 'openpyxl', None]` (line 74). -/
def engineResults (f : ExcelFile) : List ReadResult :=
  [f.readXlrd, f.readOpenpyxl, f.readDefault]

/-- The engine loop of lines 76-88: `df` starts as `None`; an exception is
swallowed and the next engine tried; a returned DataFrame is assigned to `df`,
and the loop breaks only if it is non-empty. -/
def tryEnginesAux : Option DF → List ReadResult → Option DF
  | acc, [] => acc
  | acc, r :: rs =>
    match r with
    | .err => tryEnginesAux acc rs
    | .ok d => if d.isEmptyDF then tryEnginesAux (some d) rs else some d

/-- Value of `df` after the engine loop (lines 73-88). -/
def tryEngines (f : ExcelFile) : Option DF :=
  tryEnginesAux none (engineResults f)

/-- Lines 90-96: only `if df is None` is the `header=None` attempt made, its
own exception swallowed.  The result is the value of `df` at line 98. -/
def readWithFallback (f : ExcelFile) : Option DF :=
  match tryEngines f with
  | some d => some d
  | none =>
    match f.readNoHeader with
    | .err => none
    | .ok d => some d

/-- Line 99's test `df is not None and not df.empty` as the table that gets
saved, if any. -/
def usableTable (f : ExcelFile) : Option DF :=
  match readWithFallback f with
  | none => none
  | some d => if d.isEmptyDF then none else some d

/-- Index of the last `'.'` in a list of characters, if any. -/
def lastDotIdx : List Char → Option Nat
  | [] => none
  | c :: cs =>
    match lastDotIdx cs with
    | some i => some (i + 1)
    | none => if c = '.' then some 0 else none

/-- `pathlib.PurePath.stem`: the name with its suffix removed, where the
suffix is `name[i:]` for `i` the last dot position provided `0 < i < len-1`. -/
def pyStem (s : String) : String :=
  match lastDotIdx s.data with
  | none => s
  | some i => if 0 < i ∧ i + 1 < s.data.length then ⟨s.data.take i⟩ else s

/-- A discovered source file: its directory components relative to the source
root, and its base name. -/
structure SrcPath where
  dirs : List String
  base : String
deriving DecidableEq

/-- The source path rendered as text (for the failure-log line). -/
def srcPathStr (p : SrcPath) : String :=
  String.intercalate "/" (p.dirs ++ [p.base])

/-- Lines 60-61: destination mirrors the relative directory, base name is the
stem with `.csv` appended. -/
def destOf (outRoot : List String) (p : SrcPath) : List String :=
  outRoot ++ p.dirs ++ [pyStem p.base ++ ".csv"]

/-- Line 46: the recognized extensions, in iteration order. -/
def excelExtensions : List String := [".xls", ".xlsx", ".xlsm", ".xlsb"]

/-- `rglob('*{ext}')` membership test on a base name: the glob pattern `*X`
matches exactly the names ending in `X` (case sensitive on POSIX). -/
def matchesExt (ext : String) (name : String) : Bool :=
  ext.data.isSuffixOf name.data

/-- Lines 47-50: for each extension in order, extend the worklist with every
file whose name matches that extension. -/
def discover (files : List SrcPath) : List SrcPath :=
  excelExtensions.foldl
    (fun acc ext => acc ++ files.filter (fun p => matchesExt ext p.base)) []

/-- A base name whose extension is recognized, under the code's actual
(case-sensitive) matching. -/
def recognized (name : String) : Bool :=
  excelExtensions.any (fun ext => matchesExt ext name)

/-- ASCII lowercase of a character. -/
def lowerChar (c : Char) : Char :=
  if 'A' ≤ c ∧ c ≤ 'Z' then Char.ofNat (c.toNat + 32) else c

/-- ASCII lowercase of a string. -/
def lowerStr (s : String) : String := ⟨s.data.map lowerChar⟩

/-- Recognition as the spec words it: the extension compared
case-insensitively against the recognized set. -/
def recognizedCI (name : String) : Bool :=
  excelExtensions.any (fun ext => matchesExt ext (lowerStr name))

/-- The recorded per-file outcome (counter incremented plus log event). -/
inductive Outcome
  | succeededOut (rowCount : Nat)
  | failedOut (reason : String)
  | skippedOut
deriving DecidableEq

/-- State threaded through the per-file loop: the four counters, the set of
output paths that exist on disk, the outputs written during this run (in
order), the lines appended to `failed_files.txt` during this run, and the
sequence of recorded outcomes. -/
structure RunState where
  total : Nat
  succeeded : Nat
  failed : Nat
  skipped : Nat
  fsPaths : List (List String)
  written : List (List String × List String)
  failLog : List String
  outcomes : List Outcome
deriving DecidableEq

/-- A fresh run's state over a disk holding the given output paths. -/
def initState (fsPaths : List (List String)) : RunState :=
  ⟨0, 0, 0, 0, fsPaths, [], [], []⟩

/-- `df.to_csv(output_path, index=False)`: the column labels joined by commas
first, then one line per row. -/
def toCsvLines (d : DF) : List String :=
  String.intercalate "," d.cols :: d.rows.map (String.intercalate ",")

/-- Line 112: the appended failure-log line
`f"{datetime.now()}\t{file_path}\t{str(e)}"`. -/
def failLine (ts : String) (src : SrcPath) (reason : String) : String :=
  ts ++ "\t" ++ srcPathStr src ++ "\t" ++ reason

/-- One file's worth of work: the discovered path, its reader oracle, and
oracles for the three fallible filesystem operations (`none` = succeeds,
`some e` = raises with message `e`), plus the timestamp the failure-log line
would carry. -/
structure FileJob where
  src : SrcPath
  content : ExcelFile
  mkdirErr : Option String
  writeErr : Option String
  logAppendErr : Option String
  timestamp : String
deriving DecidableEq

/-- The body of the per-file `try` block (lines 59-104).  `Except.error r`
means an exception with message `r` reached the `except` handler. -/
def innerStep (outRoot : List String) (st : RunState) (j : FileJob) :
    Except String RunState :=
  let dest := destOf outRoot j.src
  match j.mkdirErr with
  | some e => .error e
  | none =>
    if dest ∈ st.fsPaths then
      .ok { st with skipped := st.skipped + 1,
                    outcomes := st.outcomes ++ [Outcome.skippedOut] }
    else
      match usableTable j.content with
      | some d =>
        match j.writeErr with
        | some e => .error e
        | none =>
          .ok { st with succeeded := st.succeeded + 1,
                        fsPaths := dest :: st.fsPaths,
                        written := st.written ++ [(dest, toCsvLines d)],
                        outcomes := st.outcomes ++ [Outcome.succeededOut d.rows.length] }
      | none => .error "No data could be read from file"

/-- One iteration of the `for file_path in excel_files` loop (lines 55-112):
`total += 1`, the `try` body, and on exception `failed += 1` followed by the
failure-log append — which itself sits outside any `try`, so its failure
escapes the loop (`Except.error`). -/
def processFile (outRoot : List String) (st : RunState) (j : FileJob) :
    Except String RunState :=
  let st1 := { st with total := st.total + 1 }
  match innerStep outRoot st1 j with
  | .ok st' => .ok st'
  | .error reason =>
    let st2 := { st1 with failed := st1.failed + 1,
                          outcomes := st1.outcomes ++ [Outcome.failedOut reason] }
    match j.logAppendErr with
    | some e => .error e
    | none =>
      .ok { st2 with failLog := st2.failLog ++ [failLine j.timestamp j.src reason] }

/-- The whole per-file loop; `Except.error` is an exception escaping it. -/
def run (outRoot : List String) : List FileJob → RunState → Except String RunState
  | [], st => .ok st
  | j :: js, st =>
    match processFile outRoot st j with
    | .ok st' => run outRoot js st'
    | .error e => .error e

/-- A job whose filesystem oracles all succeed. -/
def FileJob.noIOErr (j : FileJob) : Prop :=
  j.mkdirErr = none ∧ j.writeErr = none ∧ j.logAppendErr = none

/-- The value the final `header=None` attempt contributes when consulted
(lines 91-96): its own exception swallowed. -/
def noHeaderResult (f : ExcelFile) : Option DF :=
  match f.readNoHeader with
  | .err => none
  | .ok d => some d

/-- A file on which every read attempt raises. -/
def allRaiseFile : ExcelFile := ⟨.err, .err, .err, .err⟩

/-- A file whose first engine returns an empty-but-valid table and whose
`header=None` read would return a non-empty table. -/
def emptyThenDataFile : ExcelFile :=
  ⟨.ok ⟨["c"], []⟩, .err, .err, .ok ⟨["0"], [["v"]]⟩⟩

/-- A file readable only by the `header=None` attempt, which therefore
carries pandas' positional integer column labels `0, 1, ...`. -/
def noHeaderOnlyFile : ExcelFile :=
  ⟨.err, .err, .err, .ok ⟨["0", "1"], [["a", "b"]]⟩⟩

/-- A job for `f.xls` whose file yields no data anywhere; every filesystem
operation succeeds. -/
def jobNoData : FileJob := ⟨⟨[], "f.xls"⟩, allRaiseFile, none, none, none, "t1"⟩

/-- A job whose file yields no data and whose failure-log append raises. -/
def jobLogRaise : FileJob :=
  ⟨⟨[], "f.xls"⟩, allRaiseFile, none, none, some "log append failed", "t1"⟩

/-- A healthy job placed after `jobLogRaise` in the worklist. -/
def jobGood : FileJob :=
  ⟨⟨[], "g.xls"⟩, ⟨.ok ⟨["c"], [["1"]]⟩, .err, .err, .err⟩, none, none, none, "t2"⟩

/-- A job readable only via the `header=None` attempt. -/
def jobNoHeader : FileJob := ⟨⟨[], "f.xls"⟩, noHeaderOnlyFile, none, none, none, "t1"⟩

/-- The state after a fresh run over just `jobNoData`. -/
def stFailOnce : RunState :=
  ⟨1, 0, 1, 0, [], [],
   [failLine "t1" ⟨[], "f.xls"⟩ "No data could be read from file"],
   [Outcome.failedOut "No data could be read from file"]⟩

/-- The state after a fresh run over `[jobNoData, jobGood]`. -/
def stRun1 : RunState :=
  ⟨2, 1, 1, 0, [["g.csv"]], [(["g.csv"], ["c", "1"])],
   [failLine "t1" ⟨[], "f.xls"⟩ "No data could be read from file"],
   [Outcome.failedOut "No data could be read from file", Outcome.succeededOut 1]⟩

/-- The state after a fresh run over just `jobNoHeader`. -/
def stNoHeaderRun : RunState :=
  ⟨1, 1, 0, 0, [["f.csv"]], [(["f.csv"], ["0,1", "a,b"])], [], [Outcome.succeededOut 1]⟩

/-- The skip branch (lines 64-68): mkdir succeeds and the destination
already exists. -/
lemma processFile_skip (outRoot : List String) (st : RunState) (j : FileJob)
    (hmk : j.mkdirErr = none) (hin : destOf outRoot j.src ∈ st.fsPaths) :
    processFile outRoot st j =
      .ok { st with total := st.total + 1, skipped := st.skipped + 1,
                    outcomes := st.outcomes ++ [Outcome.skippedOut] } := by
  simp only [processFile, innerStep, hmk]
  rw [if_pos hin]

/-- The success branch (lines 99-102): mkdir succeeds, destination is new, a
usable table was obtained and the write succeeds. -/
lemma processFile_write (outRoot : List String) (st : RunState) (j : FileJob)
    (d : DF) (hmk : j.mkdirErr = none) (hnin : destOf outRoot j.src ∉ st.fsPaths)
    (hu : usableTable j.content = some d) (hwr : j.writeErr = none) :
    processFile outRoot st j =
      .ok { st with total := st.total + 1, succeeded := st.succeeded + 1,
                    fsPaths := destOf outRoot j.src :: st.fsPaths,
                    written := st.written ++ [(destOf outRoot j.src, toCsvLines d)],
                    outcomes := st.outcomes ++ [Outcome.succeededOut d.rows.length] } := by
  simp only [processFile, innerStep, hmk, hu, hwr]
  rw [if_neg hnin]

/-- The failure branch (lines 106-112) when the failure-log append succeeds:
the exception is recorded and one line appended. -/
lemma processFile_fail (outRoot : List String) (st : RunState) (j : FileJob)
    (r : String)
    (hinner : innerStep outRoot { st with total := st.total + 1 } j = .error r)
    (hlog : j.logAppendErr = none) :
    processFile outRoot st j =
      .ok { st with total := st.total + 1, failed := st.failed + 1,
                    outcomes := st.outcomes ++ [Outcome.failedOut r],
                    failLog := st.failLog ++ [failLine j.timestamp j.src r] } := by
  simp only [processFile, hinner, hlog]

/-- When no strategy yields a usable table, the `try` body raises the fixed
message of line 104. -/
lemma innerStep_noData (outRoot : List String) (st : RunState) (j : FileJob)
    (hmk : j.mkdirErr = none) (hnin : destOf outRoot j.src ∉ st.fsPaths)
    (hu : usableTable j.content = none) :
    innerStep outRoot st j = .error "No data could be read from file" := by
  simp only [innerStep, hmk, hu]
  rw [if_neg hnin]

/-- Skip branch of the `try` body. -/
lemma innerStep_skip (outRoot : List String) (st : RunState) (j : FileJob)
    (hmk : j.mkdirErr = none) (hin : destOf outRoot j.src ∈ st.fsPaths) :
    innerStep outRoot st j =
      .ok { st with skipped := st.skipped + 1,
                    outcomes := st.outcomes ++ [Outcome.skippedOut] } := by
  simp only [innerStep, hmk]
  rw [if_pos hin]

/-- Write branch of the `try` body. -/
lemma innerStep_write (outRoot : List String) (st : RunState) (j : FileJob)
    (d : DF) (hmk : j.mkdirErr = none) (hnin : destOf outRoot j.src ∉ st.fsPaths)
    (hu : usableTable j.content = some d) (hwr : j.writeErr = none) :
    innerStep outRoot st j =
      .ok { st with succeeded := st.succeeded + 1,
                    fsPaths := destOf outRoot j.src :: st.fsPaths,
                    written := st.written ++ [(destOf outRoot j.src, toCsvLines d)],
                    outcomes := st.outcomes ++ [Outcome.succeededOut d.rows.length] } := by
  simp only [innerStep, hmk, hu, hwr]
  rw [if_neg hnin]

/-- A mkdir exception propagates out of the `try` body. -/
lemma innerStep_mkdirRaise (outRoot : List String) (st : RunState) (j : FileJob)
    (e : String) (hmk : j.mkdirErr = some e) :
    innerStep outRoot st j = .error e := by
  simp only [innerStep, hmk]

/-- A `to_csv` exception propagates out of the `try` body. -/
lemma innerStep_writeRaise (outRoot : List String) (st : RunState) (j : FileJob)
    (d : DF) (e : String) (hmk : j.mkdirErr = none)
    (hnin : destOf outRoot j.src ∉ st.fsPaths)
    (hu : usableTable j.content = some d) (hwr : j.writeErr = some e) :
    innerStep outRoot st j = .error e := by
  simp only [innerStep, hmk, hu, hwr]
  rw [if_neg hnin]

/-- Exhaustive description of a `try` body that returned normally. -/
lemma innerStep_cases (outRoot : List String) (st : RunState) (j : FileJob)
    (st2 : RunState) (h : innerStep outRoot st j = .ok st2) :
    (j.mkdirErr = none ∧ destOf outRoot j.src ∈ st.fsPaths ∧
      st2 = { st with skipped := st.skipped + 1,
                      outcomes := st.outcomes ++ [Outcome.skippedOut] }) ∨
    (∃ d, j.mkdirErr = none ∧ destOf outRoot j.src ∉ st.fsPaths ∧
      usableTable j.content = some d ∧ j.writeErr = none ∧
      st2 = { st with succeeded := st.succeeded + 1,
                      fsPaths := destOf outRoot j.src :: st.fsPaths,
                      written := st.written ++ [(destOf outRoot j.src, toCsvLines d)],
                      outcomes := st.outcomes ++ [Outcome.succeededOut d.rows.length] }) := by
  cases hmk : j.mkdirErr with
  | some e => rw [innerStep_mkdirRaise outRoot st j e hmk] at h; exact Except.noConfusion h
  | none =>
    by_cases hin : destOf outRoot j.src ∈ st.fsPaths
    · rw [innerStep_skip outRoot st j hmk hin] at h
      exact Or.inl ⟨rfl, hin, (Except.ok.inj h).symm⟩
    · cases hu : usableTable j.content with
      | none =>
        rw [innerStep_noData outRoot st j hmk hin hu] at h
        exact Except.noConfusion h
      | some d =>
        cases hwr : j.writeErr with
        | some e =>
          rw [innerStep_writeRaise outRoot st j d e hmk hin hu hwr] at h
          exact Except.noConfusion h
        | none =>
          rw [innerStep_write outRoot st j d hmk hin hu hwr] at h
          exact Or.inr ⟨d, rfl, hin, rfl, rfl, (Except.ok.inj h).symm⟩

/-- Exhaustive description of a per-file iteration that did not abort: a
skip, a successful conversion, or a recorded failure. -/
lemma processFile_cases (outRoot : List String) (st : RunState) (j : FileJob)
    (st' : RunState) (h : processFile outRoot st j = .ok st') :
    (j.mkdirErr = none ∧ destOf outRoot j.src ∈ st.fsPaths ∧
      st' = { st with total := st.total + 1, skipped := st.skipped + 1,
                      outcomes := st.outcomes ++ [Outcome.skippedOut] }) ∨
    (∃ d, j.mkdirErr = none ∧ destOf outRoot j.src ∉ st.fsPaths ∧
      usableTable j.content = some d ∧ j.writeErr = none ∧
      st' = { st with total := st.total + 1, succeeded := st.succeeded + 1,
                      fsPaths := destOf outRoot j.src :: st.fsPaths,
                      written := st.written ++ [(destOf outRoot j.src, toCsvLines d)],
                      outcomes := st.outcomes ++ [Outcome.succeededOut d.rows.length] }) ∨
    (∃ r, j.logAppendErr = none ∧
      st' = { st with total := st.total + 1, failed := st.failed + 1,
                      outcomes := st.outcomes ++ [Outcome.failedOut r],
                      failLog := st.failLog ++ [failLine j.timestamp j.src r] }) := by
  cases heq : innerStep outRoot { st with total := st.total + 1 } j with
  | ok st2 =>
    rcases innerStep_cases _ _ _ _ heq with ⟨hmk, hin, hs⟩ | ⟨d, hmk, hnin, hu, hwr, hs⟩
    · refine Or.inl ⟨hmk, hin, ?_⟩
      have hpf := processFile_skip outRoot st j hmk hin
      rw [h] at hpf
      exact Except.ok.inj hpf
    · refine Or.inr (Or.inl ⟨d, hmk, hnin, hu, hwr, ?_⟩)
      have hpf := processFile_write outRoot st j d hmk hnin hu hwr
      rw [h] at hpf
      exact Except.ok.inj hpf
  | error r =>
    cases hlog : j.logAppendErr with
    | some e =>
      have : processFile outRoot st j = .error e := by
        simp only [processFile, heq, hlog]
      rw [h] at this
      exact Except.noConfusion this
    | none =>
      refine Or.inr (Or.inr ⟨r, rfl, ?_⟩)
      have hpf := processFile_fail outRoot st j r heq hlog
      rw [h] at hpf
      exact Except.ok.inj hpf

/-- If every failure-log append succeeds, no iteration aborts. -/
lemma processFile_ok_of_log_none (outRoot : List String) (st : RunState)
    (j : FileJob) (hlog : j.logAppendErr = none) :
    ∃ st', processFile outRoot st j = .ok st' := by
  cases heq : innerStep outRoot { st with total := st.total + 1 } j with
  | ok st2 => exact ⟨st2, by simp only [processFile, heq]⟩
  | error r => exact ⟨_, processFile_fail outRoot st j r heq hlog⟩

/-- A non-aborting iteration never removes paths from the disk. -/
lemma processFile_fs_mono (outRoot : List String) (st : RunState) (j : FileJob)
    (st' : RunState) (h : processFile outRoot st j = .ok st') :
    st.fsPaths ⊆ st'.fsPaths := by
  rcases processFile_cases outRoot st j st' h with
    ⟨_, _, rfl⟩ | ⟨d, _, _, _, _, rfl⟩ | ⟨r, _, rfl⟩
  · exact fun x hx => hx
  · exact fun x hx => List.mem_cons_of_mem _ hx
  · exact fun x hx => hx

/-- A whole run never removes paths from the disk. -/
lemma run_fs_mono (outRoot : List String) (jobs : List FileJob) :
    ∀ st st', run outRoot jobs st = .ok st' → st.fsPaths ⊆ st'.fsPaths := by
  induction jobs with
  | nil =>
    intro st st' h
    simp only [run] at h
    cases h
    exact fun x hx => hx
  | cons j js ih =>
    intro st st' h
    simp only [run] at h
    cases hpf : processFile outRoot st j with
    | error e => rw [hpf] at h; exact Except.noConfusion h
    | ok st1 =>
      rw [hpf] at h
      exact fun x hx => ih st1 st' h (processFile_fs_mono outRoot st j st1 hpf hx)

/-- After a run in which mkdir and `to_csv` always succeed, the destination
of every file with a usable table exists on disk. -/
lemma run_covers (outRoot : List String) (jobs : List FileJob) :
    ∀ st st', run outRoot jobs st = .ok st' →
      (∀ j ∈ jobs, j.mkdirErr = none ∧ j.writeErr = none) →
      ∀ j ∈ jobs, usableTable j.content ≠ none →
        destOf outRoot j.src ∈ st'.fsPaths := by
  induction jobs with
  | nil => intro st st' _ _ j hj; exact absurd hj (List.not_mem_nil j)
  | cons j js ih =>
    intro st st' h hio x hx hu
    simp only [run] at h
    cases hpf : processFile outRoot st j with
    | error e => rw [hpf] at h; exact Except.noConfusion h
    | ok st1 =>
      rw [hpf] at h
      rcases List.mem_cons.mp hx with rfl | hxs
      · -- the head file itself: it was skipped (dest already present) or written
        obtain ⟨hmk, hwr⟩ := hio x (List.mem_cons_self x js)
        cases hud : usableTable x.content with
        | none => exact absurd hud hu
        | some d =>
          by_cases hin : destOf outRoot x.src ∈ st.fsPaths
          · rw [processFile_skip outRoot st x hmk hin] at hpf
            cases hpf
            exact run_fs_mono outRoot js _ st' h hin
          · rw [processFile_write outRoot st x d hmk hin hud hwr] at hpf
            cases hpf
            exact run_fs_mono outRoot js _ st' h (List.mem_cons_self _ _)
      · exact ih st1 st' h (fun y hy => hio y (List.mem_cons_of_mem j hy)) x hxs hu

/-- A run in which every file with a usable table already has its destination
on disk completes without writing anything: every file is either skipped or
fails again. -/
lemma run_all_skip_or_fail (outRoot : List String) (jobs : List FileJob) :
    ∀ st,
      (∀ j ∈ jobs, j.mkdirErr = none ∧ j.logAppendErr = none) →
      (∀ j ∈ jobs, usableTable j.content ≠ none →
        destOf outRoot j.src ∈ st.fsPaths) →
      ∃ st', run outRoot jobs st = .ok st' ∧
        st'.fsPaths = st.fsPaths ∧
        st'.written = st.written ∧
        st'.succeeded = st.succeeded ∧
        (∀ o ∈ st'.outcomes,
          o ∈ st.outcomes ∨ o = Outcome.skippedOut ∨ ∃ r, o = Outcome.failedOut r) := by
  induction jobs with
  | nil =>
    intro st _ _
    exact ⟨st, rfl, rfl, rfl, rfl, fun o ho => Or.inl ho⟩
  | cons j js ih =>
    intro st hio hcov
    obtain ⟨hmk, hlog⟩ := hio j (List.mem_cons_self j js)
    by_cases hin : destOf outRoot j.src ∈ st.fsPaths
    · -- skipped
      have hpf := processFile_skip outRoot st j hmk hin
      obtain ⟨st', hrun, hfs, hw, hs, hout⟩ :=
        ih { st with total := st.total + 1, skipped := st.skipped + 1,
                     outcomes := st.outcomes ++ [Outcome.skippedOut] }
          (fun y hy => hio y (List.mem_cons_of_mem j hy))
          (fun y hy hu => hcov y (List.mem_cons_of_mem j hy) hu)
      refine ⟨st', ?_, hfs, hw, hs, ?_⟩
      · simp only [run, hpf]; exact hrun
      · intro o ho
        rcases hout o ho with hmem | hrest
        · rcases List.mem_append.mp hmem with hl | hr
          · exact Or.inl hl
          · exact Or.inr (Or.inl (List.mem_singleton.mp hr))
        · exact Or.inr hrest
    · -- no usable table: fails again
      have hu : usableTable j.content = none := by
        cases hud : usableTable j.content with
        | none => rfl
        | some d => exact absurd (hcov j (List.mem_cons_self j js) (by simp [hud])) hin
      have hinner :
          innerStep outRoot { st with total := st.total + 1 } j =
            .error "No data could be read from file" :=
        innerStep_noData outRoot _ j hmk hin hu
      have hpf := processFile_fail outRoot st j _ hinner hlog
      obtain ⟨st', hrun, hfs, hw, hs, hout⟩ :=
        ih { st with total := st.total + 1, failed := st.failed + 1,
                     outcomes := st.outcomes ++
                       [Outcome.failedOut "No data could be read from file"],
                     failLog := st.failLog ++
                       [failLine j.timestamp j.src "No data could be read from file"] }
          (fun y hy => hio y (List.mem_cons_of_mem j hy))
          (fun y hy hyu => hcov y (List.mem_cons_of_mem j hy) hyu)
      refine ⟨st', ?_, hfs, hw, hs, ?_⟩
      · simp only [run, hpf]; exact hrun
      · intro o ho
        rcases hout o ho with hmem | hrest
        · rcases List.mem_append.mp hmem with hl | hr
          · exact Or.inl hl
          · exact Or.inr (Or.inr ⟨_, List.mem_singleton.mp hr⟩)
        · exact Or.inr hrest

/-- A run over jobs whose failure-log appends all succeed never aborts. -/
lemma run_ok_of_log_none (outRoot : List String) (jobs : List FileJob) :
    ∀ st, (∀ j ∈ jobs, j.logAppendErr = none) →
      ∃ st', run outRoot jobs st = .ok st' := by
  induction jobs with
  | nil => intro st _; exact ⟨st, rfl⟩
  | cons j js ih =>
    intro st hlog
    obtain ⟨st1, hpf⟩ :=
      processFile_ok_of_log_none outRoot st j (hlog j (List.mem_cons_self j js))
    obtain ⟨st', hrun⟩ := ih st1 (fun y hy => hlog y (List.mem_cons_of_mem j hy))
    exact ⟨st', by simp only [run, hpf]; exact hrun⟩

/-- Invariant: every output written so far exists on disk, and no destination
has been written twice. -/
lemma run_written_inv (outRoot : List String) (jobs : List FileJob) :
    ∀ st st', run outRoot jobs st = .ok st' →
      (∀ q ∈ st.written, q.1 ∈ st.fsPaths) →
      (st.written.map Prod.fst).Nodup →
      (∀ q ∈ st'.written, q.1 ∈ st'.fsPaths) ∧
      (st'.written.map Prod.fst).Nodup := by
  induction jobs with
  | nil =>
    intro st st' h hq hnd
    simp only [run] at h
    cases h
    exact ⟨hq, hnd⟩
  | cons j js ih =>
    intro st st' h hq hnd
    simp only [run] at h
    cases hpf : processFile outRoot st j with
    | error e => rw [hpf] at h; exact Except.noConfusion h
    | ok st1 =>
      rw [hpf] at h
      rcases processFile_cases outRoot st j st1 hpf with
        ⟨_, _, rfl⟩ | ⟨d, _, hnin, _, _, rfl⟩ | ⟨r, _, rfl⟩
      · exact ih _ st' h hq hnd
      · refine ih _ st' h ?_ ?_
        · intro q hmem
          rcases List.mem_append.mp hmem with hl | hr
          · exact List.mem_cons_of_mem _ (hq q hl)
          · rw [List.mem_singleton.mp hr]
            exact List.mem_cons_self _ _
        · have hnew : destOf outRoot j.src ∉ st.written.map Prod.fst := by
            intro hc
            obtain ⟨q, hqmem, hqfst⟩ := List.mem_map.mp hc
            exact hnin (hqfst ▸ hq q hqmem)
          simp only [List.map_append, List.map_cons, List.map_nil]
          rw [List.nodup_append]
          exact ⟨hnd, List.nodup_singleton _,
            fun a ha hb => hnew (List.mem_singleton.mp hb ▸ ha)⟩
      · exact ih _ st' h hq hnd

/-- Two suffixes of the same list are ordered: the shorter is a suffix of the
longer. -/
lemma suffix_of_suffix_of_length_le {α : Type} {l₁ l₂ n : List α}
    (h₁ : l₁ <:+ n) (h₂ : l₂ <:+ n) (hle : l₁.length ≤ l₂.length) :
    l₁ <:+ l₂ := by
  obtain ⟨t, ht⟩ := h₁
  obtain ⟨s, hs⟩ := h₂
  rw [← hs] at ht
  rcases List.append_eq_append_iff.mp ht with ⟨a, ha, hb⟩ | ⟨c, hc, hd⟩
  · have hlen : l₁.length = a.length + l₂.length := by
      rw [hb, List.length_append]
    have : a.length = 0 := by omega
    rw [List.length_eq_zero.mp this] at hb
    rw [hb]
    exact List.suffix_rfl
  · exact ⟨c, hd.symm⟩

/-- The discovery loop unfolded: one filter pass per extension, concatenated
in extension order. -/
lemma discover_eq (files : List SrcPath) :
    discover files =
      files.filter (fun p => matchesExt ".xls" p.base) ++
      files.filter (fun p => matchesExt ".xlsx" p.base) ++
      files.filter (fun p => matchesExt ".xlsm" p.base) ++
      files.filter (fun p => matchesExt ".xlsb" p.base) := rfl

/-- No base name matches two distinct recognized extensions. -/
lemma matchesExt_excl (e₁ e₂ name : String)
    (hle : e₁.data.length ≤ e₂.data.length) (hns : ¬ e₁.data <:+ e₂.data) :
    ¬(matchesExt e₁ name = true ∧ matchesExt e₂ name = true) := by
  rintro ⟨h1, h2⟩
  rw [matchesExt, List.isSuffixOf_iff_suffix] at h1 h2
  exact hns (suffix_of_suffix_of_length_le h1 h2 hle)

/-- Filtering one list by mutually exclusive predicates gives disjoint
results. -/
lemma filters_disjoint (files : List SrcPath) (p q : SrcPath → Bool)
    (hpq : ∀ x, ¬(p x = true ∧ q x = true)) :
    (files.filter p).Disjoint (files.filter q) := by
  intro a ha hb
  exact hpq a ⟨(List.mem_filter.mp ha).2, (List.mem_filter.mp hb).2⟩

/-- Discovery membership: exactly the files whose base name matches one of
the four extensions, case-sensitively. -/
lemma discover_mem (files : List SrcPath) (p : SrcPath) :
    p ∈ discover files ↔ p ∈ files ∧ recognized p.base = true := by
  rw [discover_eq]
  simp only [List.mem_append, List.mem_filter, recognized, excelExtensions,
    List.any_eq_true, List.mem_cons, List.not_mem_nil, or_false]
  constructor
  · rintro (((⟨hf, hm⟩ | ⟨hf, hm⟩) | ⟨hf, hm⟩) | ⟨hf, hm⟩)
    · exact ⟨hf, _, Or.inl rfl, hm⟩
    · exact ⟨hf, _, Or.inr (Or.inl rfl), hm⟩
    · exact ⟨hf, _, Or.inr (Or.inr (Or.inl rfl)), hm⟩
    · exact ⟨hf, _, Or.inr (Or.inr (Or.inr rfl)), hm⟩
  · rintro ⟨hf, ext, (rfl | rfl | rfl | rfl), hm⟩
    · exact Or.inl (Or.inl (Or.inl ⟨hf, hm⟩))
    · exact Or.inl (Or.inl (Or.inr ⟨hf, hm⟩))
    · exact Or.inl (Or.inr ⟨hf, hm⟩)
    · exact Or.inr ⟨hf, hm⟩

/-- Discovery visits no file twice when the tree has no duplicate paths. -/
lemma discover_nodup (files : List SrcPath) (h : files.Nodup) :
    (discover files).Nodup := by
  have hx (e₁ e₂ : String) (hle : e₁.data.length ≤ e₂.data.length)
      (hns : ¬ e₁.data <:+ e₂.data) :
      (files.filter (fun p => matchesExt e₁ p.base)).Disjoint
        (files.filter (fun p => matchesExt e₂ p.base)) :=
    filters_disjoint files _ _ (fun x => matchesExt_excl e₁ e₂ x.base hle hns)
  rw [discover_eq]
  rw [List.nodup_append, List.nodup_append, List.nodup_append]
  refine ⟨⟨⟨h.filter _, h.filter _, hx ".xls" ".xlsx" (by decide) (by decide)⟩,
    h.filter _, ?_⟩, h.filter _, ?_⟩
  · intro a ha hb
    rcases List.mem_append.mp ha with hl | hr
    · exact hx ".xls" ".xlsm" (by decide) (by decide) hl hb
    · exact hx ".xlsx" ".xlsm" (by decide) (by decide) hr hb
  · intro a ha hb
    rcases List.mem_append.mp ha with hl | hr
    · rcases List.mem_append.mp hl with hll | hlr
      · exact hx ".xls" ".xlsb" (by decide) (by decide) hll hb
      · exact hx ".xlsx" ".xlsb" (by decide) (by decide) hlr hb
    · exact hx ".xlsm" ".xlsb" (by decide) (by decide) hr hb

/-- Appending one element is injective in both parts. -/
lemma append_singleton_inj {α : Type} {l₁ l₂ : List α} {x₁ x₂ : α}
    (h : l₁ ++ [x₁] = l₂ ++ [x₂]) : l₁ = l₂ ∧ x₁ = x₂ := by
  have hlen : l₁.length = l₂.length := by
    have hl := congrArg List.length h
    simp only [List.length_append, List.length_cons, List.length_nil] at hl
    omega
  obtain ⟨h1, h2⟩ := List.append_inj h hlen
  refine ⟨h1, ?_⟩
  injection h2

/-- Cancelling a common string suffix. -/
lemma string_append_right_cancel {s t u : String} (h : s ++ u = t ++ u) :
    s = t := by
  apply String.ext
  have hd := congrArg String.data h
  rw [String.data_append, String.data_append] at hd
  exact List.append_cancel_right hd

/-- The last dot of `l₁ ++ l₂` sits inside `l₂` whenever `l₂` has a dot. -/
lemma lastDotIdx_append_some (l₁ l₂ : List Char) (i : Nat)
    (h : lastDotIdx l₂ = some i) :
    lastDotIdx (l₁ ++ l₂) = some (l₁.length + i) := by
  induction l₁ with
  | nil => simpa using h
  | cons c cs ih =>
    have hstep : lastDotIdx ((c :: cs) ++ l₂) =
        match lastDotIdx (cs ++ l₂) with
        | some k => some (k + 1)
        | none => if c = '.' then some 0 else none := rfl
    rw [hstep, ih]
    show some (cs.length + i + 1) = some ((c :: cs).length + i)
    exact congrArg some (by simp only [List.length_cons]; omega)

/-- Appending a dotted extension to a non-empty stem: `Path.stem` recovers
the stem. -/
lemma pyStem_append_ext (s ext : String) (hs : s ≠ "")
    (h0 : lastDotIdx ext.data = some 0) (hlen : 2 ≤ ext.data.length) :
    pyStem (s ++ ext) = s := by
  have hsd : s.data ≠ [] := by
    intro hn
    exact hs (String.ext (by simpa using hn))
  have hpos : 0 < s.data.length := List.length_pos.mpr hsd
  have hdot : lastDotIdx (s ++ ext).data = some (s.data.length + 0) := by
    rw [String.data_append]
    exact lastDotIdx_append_some s.data ext.data 0 h0
  rw [pyStem, hdot]
  have hcond : 0 < s.data.length + 0 ∧
      s.data.length + 0 + 1 < (s ++ ext).data.length := by
    rw [String.data_append, List.length_append]
    omega
  show (if 0 < s.data.length + 0 ∧ s.data.length + 0 + 1 < (s ++ ext).data.length
    then ({ data := (s ++ ext).data.take (s.data.length + 0) } : String)
    else s ++ ext) = s
  rw [if_pos hcond]
  have htake : (s ++ ext).data.take (s.data.length + 0) = s.data := by
    rw [String.data_append, Nat.add_zero, List.take_left]
  rw [htake]

/-- C1: counterexample.  The claim says an empty-but-valid table from a
strategy and a strategy exception identically trigger the final
`header=None` attempt.  Here the first engine returns an empty table, the
other two raise, and the `header=None` read would return a usable non-empty
table; were the final attempt made, the conversion would succeed, yet the
code keeps the empty table and no usable table results. -/
theorem c1_counterexample :
    emptyThenDataFile.readXlrd = .ok ⟨["c"], []⟩ ∧
    DF.isEmptyDF ⟨["c"], []⟩ = true ∧
    emptyThenDataFile.readOpenpyxl = .err ∧
    emptyThenDataFile.readDefault = .err ∧
    noHeaderResult emptyThenDataFile = some ⟨["0"], [["v"]]⟩ ∧
    DF.isEmptyDF ⟨["0"], [["v"]]⟩ = false ∧
    readWithFallback emptyThenDataFile = some ⟨["c"], []⟩ ∧
    usableTable emptyThenDataFile = none := by
  decide

/-- C1 (amended): the final `header=None` attempt is consulted exactly when
all three engine attempts raised; an engine that returned a table — even an
empty one — suppresses the final attempt, and the engine loop's table is
kept. -/
theorem c1_fallback_trigger (f : ExcelFile) :
    (f.readXlrd = .err → f.readOpenpyxl = .err → f.readDefault = .err →
      readWithFallback f = noHeaderResult f) ∧
    (∀ d, tryEngines f = some d → readWithFallback f = some d) := by
  constructor
  · intro h1 h2 h3
    have hnone : tryEngines f = none := by
      rw [tryEngines, engineResults, h1, h2, h3]
      rfl
    rw [readWithFallback, hnone]
    rfl
  · intro d hd
    rw [readWithFallback, hd]

/-- C1: witness for the amended theorem at concrete files. -/
theorem c1_witness :
    readWithFallback allRaiseFile = noHeaderResult allRaiseFile ∧
    readWithFallback jobGood.content = some ⟨["c"], [["1"]]⟩ :=
  ⟨(c1_fallback_trigger allRaiseFile).1 rfl rfl rfl,
   (c1_fallback_trigger jobGood.content).2 ⟨["c"], [["1"]]⟩ rfl⟩

/-- C3: counterexample.  Two distinct discovered source files that differ
only in extension map to the same destination path, so the source-to-
destination mapping is not injective. -/
theorem c3_counterexample :
    (⟨[], "b.xls"⟩ : SrcPath) ≠ ⟨[], "b.xlsx"⟩ ∧
    recognized "b.xls" = true ∧
    recognized "b.xlsx" = true ∧
    destOf [] ⟨[], "b.xls"⟩ = destOf [] ⟨[], "b.xlsx"⟩ := by
  decide

/-- C3 (amended): the mapping is injective on files that differ in their
relative directory or in their stem; only files equal up to extension can
collide. -/
theorem c3_dest_inj (outRoot : List String) (a b : SrcPath)
    (h : a.dirs ≠ b.dirs ∨ pyStem a.base ≠ pyStem b.base) :
    destOf outRoot a ≠ destOf outRoot b := by
  intro he
  rw [destOf, destOf, List.append_assoc, List.append_assoc] at he
  have h2 := List.append_cancel_left he
  obtain ⟨hd, hx⟩ := append_singleton_inj h2
  cases h with
  | inl hne => exact hne hd
  | inr hne => exact hne (string_append_right_cancel hx)

/-- C3: witness for the amended theorem at concrete paths. -/
theorem c3_witness :
    destOf [] ⟨["a"], "x.xls"⟩ ≠ destOf [] ⟨["b"], "x.xls"⟩ :=
  c3_dest_inj [] ⟨["a"], "x.xls"⟩ ⟨["b"], "x.xls"⟩ (Or.inl (by decide))

/-- C4: counterexample.  A file whose extension is recognized when compared
case-insensitively (`A.XLSX`) is not discovered: the glob patterns are
lowercase and matching is case-sensitive. -/
theorem c4_counterexample :
    recognizedCI "A.XLSX" = true ∧
    (⟨[], "A.XLSX"⟩ : SrcPath) ∈ [(⟨[], "A.XLSX"⟩ : SrcPath)] ∧
    discover [⟨[], "A.XLSX"⟩] = [] := by
  decide

/-- C4 (amended): discovery enumerates exactly the files whose base name
ends, case-sensitively, with one of the four lowercase extensions, and
visits each such file exactly once when the tree has no duplicate paths. -/
theorem c4_discovery (files : List SrcPath) (p : SrcPath) :
    (p ∈ discover files ↔ p ∈ files ∧ recognized p.base = true) ∧
    (files.Nodup → (discover files).Nodup) :=
  ⟨discover_mem files p, discover_nodup files⟩

/-- C4: witness for the amended theorem at a concrete tree. -/
theorem c4_witness :
    ((⟨[], "b.xls"⟩ : SrcPath) ∈ discover [⟨[], "b.xls"⟩] ↔
      (⟨[], "b.xls"⟩ : SrcPath) ∈ [(⟨[], "b.xls"⟩ : SrcPath)] ∧
        recognized "b.xls" = true) ∧
    (discover [(⟨[], "b.xls"⟩ : SrcPath)]).Nodup :=
  ⟨(c4_discovery [⟨[], "b.xls"⟩] ⟨[], "b.xls"⟩).1,
   (c4_discovery [⟨[], "b.xls"⟩] ⟨[], "b.xls"⟩).2 (List.nodup_singleton _)⟩

/-- C9: for a source file `sourceRoot/a/b/c.xlsx` (any non-empty stem, any
recognized extension), the destination is `outputRoot/a/b/c.csv`: relative
path preserved, extension replaced by `.csv`. -/
theorem c9_path_fidelity (outRoot dirs : List String) (s ext : String)
    (hs : s ≠ "") (hext : ext ∈ excelExtensions) :
    destOf outRoot ⟨dirs, s ++ ext⟩ = outRoot ++ dirs ++ [s ++ ".csv"] := by
  have hprops : lastDotIdx ext.data = some 0 ∧ 2 ≤ ext.data.length := by
    fin_cases hext <;> exact ⟨by decide, by decide⟩
  show outRoot ++ dirs ++ [pyStem (s ++ ext) ++ ".csv"] =
    outRoot ++ dirs ++ [s ++ ".csv"]
  rw [pyStem_append_ext s ext hs hprops.1 hprops.2]

/-- C9: witness at a concrete path. -/
theorem c9_witness :
    destOf ["out"] ⟨["a", "b"], "c" ++ ".xlsx"⟩ =
      ["out"] ++ ["a", "b"] ++ ["c" ++ ".csv"] :=
  c9_path_fidelity ["out"] ["a", "b"] "c" ".xlsx" (by decide) (by decide)

/-- C2: counterexample.  A file that failed on the first run produced no
output, so on the second run it is processed again and recorded Failed —
not Skipped — refuting "every discovered file is recorded as Skipped". -/
theorem c2_counterexample :
    run [] [jobNoData] (initState []) = .ok stFailOnce ∧
    stFailOnce.fsPaths = [] ∧
    run [] [jobNoData] (initState stFailOnce.fsPaths) = .ok stFailOnce ∧
    stFailOnce.outcomes = [Outcome.failedOut "No data could be read from file"] ∧
    stFailOnce.skipped = 0 :=
  ⟨rfl, rfl, rfl, rfl, rfl⟩

/-- C2 (amended): rerunning the same jobs over the disk state left by a
first run (with all filesystem operations succeeding) writes no output
files and never succeeds on a file; every outcome is Skipped or Failed
(files that failed the first time fail again rather than being skipped). -/
theorem c2_second_run (outRoot : List String) (jobs : List FileJob)
    (st1 : RunState)
    (hio : ∀ j ∈ jobs,
      j.mkdirErr = none ∧ j.writeErr = none ∧ j.logAppendErr = none)
    (h1 : run outRoot jobs (initState []) = .ok st1) :
    ∃ st2, run outRoot jobs (initState st1.fsPaths) = .ok st2 ∧
      st2.written = [] ∧ st2.succeeded = 0 ∧
      ∀ o ∈ st2.outcomes,
        o = Outcome.skippedOut ∨ ∃ r, o = Outcome.failedOut r := by
  have hcov : ∀ j ∈ jobs, usableTable j.content ≠ none →
      destOf outRoot j.src ∈ st1.fsPaths :=
    run_covers outRoot jobs (initState []) st1 h1
      (fun j hj => ⟨(hio j hj).1, (hio j hj).2.1⟩)
  obtain ⟨st2, hrun, hfs, hw, hs, hout⟩ :=
    run_all_skip_or_fail outRoot jobs (initState st1.fsPaths)
      (fun j hj => ⟨(hio j hj).1, (hio j hj).2.2⟩) hcov
  refine ⟨st2, hrun, hw, hs, ?_⟩
  intro o ho
  rcases hout o ho with hmem | hrest
  · exact absurd hmem (List.not_mem_nil o)
  · exact hrest

/-- C2: witness for the amended theorem over a concrete two-file worklist
(one file failing, one succeeding). -/
theorem c2_witness :
    ∃ st2, run [] [jobNoData, jobGood] (initState stRun1.fsPaths) = .ok st2 ∧
      st2.written = [] ∧ st2.succeeded = 0 ∧
      ∀ o ∈ st2.outcomes,
        o = Outcome.skippedOut ∨ ∃ r, o = Outcome.failedOut r := by
  refine c2_second_run [] [jobNoData, jobGood] stRun1 ?_ rfl
  intro j hj
  rcases List.mem_cons.mp hj with rfl | hj2
  · exact ⟨rfl, rfl, rfl⟩
  · rcases List.mem_cons.mp hj2 with rfl | hj3
    · exact ⟨rfl, rfl, rfl⟩
    · exact absurd hj3 (List.not_mem_nil j)

/-- C5: counterexample.  A file readable only via the `header=None` fallback
is written WITH a first line of column labels — pandas' positional integers
"0,1" — rather than with raw cell values from row 1 onward as claimed. -/
theorem c5_counterexample :
    usableTable noHeaderOnlyFile = noHeaderResult noHeaderOnlyFile ∧
    run [] [jobNoHeader] (initState []) = .ok stNoHeaderRun ∧
    stNoHeaderRun.written = [(["f.csv"], ["0,1", "a,b"])] ∧
    ["0,1", "a,b"] ≠ ["a,b"] :=
  ⟨rfl, rfl, rfl, by decide⟩

/-- C5 (amended): every output the pipeline writes begins with a header row
joining the table's column labels; in the `header=None` fallback case those
labels are pandas' positional integers, so a header row is still emitted. -/
theorem c5_header_always (outRoot : List String) (st : RunState) (j : FileJob)
    (st' : RunState) (h : processFile outRoot st j = .ok st') :
    st'.written = st.written ∨
    ∃ d, usableTable j.content = some d ∧
      st'.written = st.written ++
        [(destOf outRoot j.src,
          String.intercalate "," d.cols ::
            d.rows.map (String.intercalate ","))] := by
  rcases processFile_cases outRoot st j st' h with
    ⟨_, _, rfl⟩ | ⟨d, _, _, hu, _, rfl⟩ | ⟨r, _, rfl⟩
  · exact Or.inl rfl
  · exact Or.inr ⟨d, hu, rfl⟩
  · exact Or.inl rfl

/-- C5: witness for the amended theorem at the fallback-only job. -/
theorem c5_witness :
    stNoHeaderRun.written = (initState []).written ∨
    ∃ d, usableTable jobNoHeader.content = some d ∧
      stNoHeaderRun.written = (initState []).written ++
        [(destOf [] jobNoHeader.src,
          String.intercalate "," d.cols ::
            d.rows.map (String.intercalate ","))] :=
  c5_header_always [] (initState []) jobNoHeader stNoHeaderRun rfl

/-- C6: counterexample.  The failure-log append sits outside the per-file
`try`: when it raises, the exception escapes and the run aborts — the
healthy second file (which alone converts fine) is never processed. -/
theorem c6_counterexample :
    run [] [jobLogRaise, jobGood] (initState []) = .error "log append failed" ∧
    run [] [jobGood] (initState []) =
      .ok ⟨1, 1, 0, 0, [["g.csv"]], [(["g.csv"], ["c", "1"])], [],
           [Outcome.succeededOut 1]⟩ :=
  ⟨rfl, rfl⟩

/-- C6 (amended): every exception raised inside the per-file `try` block is
caught and recorded as a Failed outcome without aborting, and a run aborts
only through a failure-log append failure: when all log appends succeed the
run always completes. -/
theorem c6_errors_contained (outRoot : List String) (jobs : List FileJob)
    (st : RunState) (hlog : ∀ j ∈ jobs, j.logAppendErr = none) :
    (∃ st', run outRoot jobs st = .ok st') ∧
    ∀ j r, j ∈ jobs →
      innerStep outRoot { st with total := st.total + 1 } j = .error r →
      processFile outRoot st j =
        .ok { st with total := st.total + 1, failed := st.failed + 1,
                      outcomes := st.outcomes ++ [Outcome.failedOut r],
                      failLog := st.failLog ++ [failLine j.timestamp j.src r] } := by
  refine ⟨run_ok_of_log_none outRoot jobs st hlog, ?_⟩
  intro j r hj hr
  exact processFile_fail outRoot st j r hr (hlog j hj)

/-- C6: witness for the amended theorem at a concrete failing job. -/
theorem c6_witness :
    processFile [] (initState []) jobNoData = .ok stFailOnce :=
  (c6_errors_contained [] [jobNoData] (initState [])
      (fun j hj => by rcases List.mem_singleton.mp hj with rfl; rfl)).2
    jobNoData "No data could be read from file"
    (List.mem_singleton.mpr rfl) rfl

/-- C7: each processed file adds exactly one recorded outcome and keeps the
accounting invariant `total = succeeded + failed + skipped`. -/
theorem c7_accounting (outRoot : List String) (st : RunState) (j : FileJob)
    (st' : RunState) (h : processFile outRoot st j = .ok st')
    (hsum : st.total = st.succeeded + st.failed + st.skipped)
    (hlen : st.outcomes.length = st.total) :
    st'.total = st.total + 1 ∧
    (∃ o, st'.outcomes = st.outcomes ++ [o]) ∧
    st'.total = st'.succeeded + st'.failed + st'.skipped ∧
    st'.outcomes.length = st'.total := by
  rcases processFile_cases outRoot st j st' h with
    ⟨_, _, rfl⟩ | ⟨d, _, _, _, _, rfl⟩ | ⟨r, _, rfl⟩
  · refine ⟨rfl, ⟨Outcome.skippedOut, rfl⟩, ?_, ?_⟩
    · show st.total + 1 = st.succeeded + st.failed + (st.skipped + 1)
      omega
    · show (st.outcomes ++ [Outcome.skippedOut]).length = st.total + 1
      simp [hlen]
  · refine ⟨rfl, ⟨Outcome.succeededOut d.rows.length, rfl⟩, ?_, ?_⟩
    · show st.total + 1 = st.succeeded + 1 + st.failed + st.skipped
      omega
    · show (st.outcomes ++ [Outcome.succeededOut d.rows.length]).length =
        st.total + 1
      simp [hlen]
  · refine ⟨rfl, ⟨Outcome.failedOut r, rfl⟩, ?_, ?_⟩
    · show st.total + 1 = st.succeeded + (st.failed + 1) + st.skipped
      omega
    · show (st.outcomes ++ [Outcome.failedOut r]).length = st.total + 1
      simp [hlen]

/-- C7: witness at a concrete processed file. -/
theorem c7_witness :
    stFailOnce.total = (initState []).total + 1 ∧
    (∃ o, stFailOnce.outcomes = (initState []).outcomes ++ [o]) ∧
    stFailOnce.total = stFailOnce.succeeded + stFailOnce.failed +
      stFailOnce.skipped ∧
    stFailOnce.outcomes.length = stFailOnce.total :=
  c7_accounting [] (initState []) jobNoData stFailOnce rfl rfl rfl

/-- C8: a conversion failure is recorded as Failed with exactly one line
`<timestamp>\t<sourcePath>\t<reason>` appended to the failure log and no
output written; when no strategy (including the `header=None` fallback)
yields a usable table, the reason is the fixed string. -/
theorem c8_failure_record (outRoot : List String) (st : RunState)
    (j : FileJob) :
    (∀ r, innerStep outRoot { st with total := st.total + 1 } j = .error r →
      j.logAppendErr = none →
      processFile outRoot st j =
        .ok { st with total := st.total + 1, failed := st.failed + 1,
                      outcomes := st.outcomes ++ [Outcome.failedOut r],
                      failLog := st.failLog ++
                        [j.timestamp ++ "\t" ++ srcPathStr j.src ++ "\t" ++ r] }) ∧
    (j.mkdirErr = none → destOf outRoot j.src ∉ st.fsPaths →
      usableTable j.content = none →
      innerStep outRoot st j = .error "No data could be read from file") :=
  ⟨fun r hr hlog => processFile_fail outRoot st j r hr hlog,
   fun hmk hnin hu => innerStep_noData outRoot st j hmk hnin hu⟩

/-- C8: witness at a concrete unreadable file. -/
theorem c8_witness :
    processFile [] (initState []) jobNoData = .ok stFailOnce ∧
    innerStep [] (initState []) jobNoData =
      .error "No data could be read from file" :=
  ⟨(c8_failure_record [] (initState []) jobNoData).1
      "No data could be read from file" rfl rfl,
   (c8_failure_record [] (initState []) jobNoData).2 rfl
      (List.not_mem_nil _) rfl⟩

/-- C10: within one run no destination is written twice — once a
destination exists every later file mapping to it is recorded Skipped with
no write. -/
theorem c10_write_once (outRoot : List String) (jobs : List FileJob)
    (st st' : RunState) (h : run outRoot jobs st = .ok st')
    (hq : ∀ q ∈ st.written, q.1 ∈ st.fsPaths)
    (hnd : (st.written.map Prod.fst).Nodup) :
    (st'.written.map Prod.fst).Nodup ∧
    (∀ j, j.mkdirErr = none → destOf outRoot j.src ∈ st.fsPaths →
      processFile outRoot st j =
        .ok { st with total := st.total + 1, skipped := st.skipped + 1,
                      outcomes := st.outcomes ++ [Outcome.skippedOut] }) :=
  ⟨(run_written_inv outRoot jobs st st' h hq hnd).2,
   fun j hmk hin => processFile_skip outRoot st j hmk hin⟩

/-- C10: witness — a run over a colliding worklist, and a later file whose
destination was already produced being skipped. -/
theorem c10_witness :
    (stRun1.written.map Prod.fst).Nodup ∧
    processFile [] stRun1 jobGood =
      .ok { stRun1 with total := stRun1.total + 1,
                        skipped := stRun1.skipped + 1,
                        outcomes := stRun1.outcomes ++ [Outcome.skippedOut] } :=
  ⟨(c10_write_once [] [jobNoData, jobGood] (initState []) stRun1 rfl
      (fun q hq => absurd hq (List.not_mem_nil q)) List.nodup_nil).1,
   (c10_write_once [] [] stRun1 stRun1 rfl (by decide) (by decide)).2
      jobGood rfl (by decide)⟩
